import Mathlib

/-!
Shallow embedding of `src/clients/display_utils.py`: the trace classifier
(`display_agent_response`), the answer extractor (`get_final_answer`) and the
tool summary renderer (`print_tools_summary`), together with theorems checking
the specification's claims about them.

Modelling conventions:
* Python message content may be a string or some non-string value; calling
  `.strip()` on a non-string raises `AttributeError`.  We model content as
  `PyVal` and fallible paths with `Except String`.
* A Python `print(arg)` call is modelled as one element of a `List String`
  (the display sink); functions return the list of print arguments in order.
* Dictionary/attribute lookups that may be absent are modelled with `Option`;
  indexing a missing key raises (`Except.error`).
-/

namespace DisplayUtils

/-- A Python value used as message content: either a string, or a non-string
value carried with its `str()` rendering.  `.strip()` succeeds only on
strings. -/
inductive PyVal where
  | str (s : String)
  | nonstr (rep : String)
deriving DecidableEq

/-- One entry of `AIMessage.tool_calls` (modern format): a dict read only at
key `'name'` by the source (`tc['name']`, display_utils.py line 49); `none`
models a dict without that key, whose lookup raises `KeyError`. -/
structure ToolCall where
  name : Option String
deriving DecidableEq

/-- Token usage metadata; the source reads the three counters with
`usage.get(key, 0)` so each is optional with default 0. -/
structure Usage where
  input_tokens : Option Nat
  output_tokens : Option Nat
  total_tokens : Option Nat
deriving DecidableEq

/-- A conversation message, tagged by the runtime class the source dispatches
on via `isinstance`.  For `ai`: `tool_calls` (always present on `AIMessage`),
the optional `additional_kwargs["tool_calls"]` list (each entry read at
`t["function"]["name"]`, modelled as the optional looked-up name), and the
optional `usage_metadata`.  For `tool`: content, `name` and the optional
`status` attribute.  `other` is any unrecognized class: its class name, its
optional `content` attribute, and its `str()` rendering. -/
inductive Message where
  | ai (content : PyVal) (tool_calls : List ToolCall)
      (kw_tool_calls : Option (List (Option String))) (usage : Option Usage)
  | tool (content : PyVal) (name : Option String) (status : Option String)
  | human (content : PyVal)
  | other (typeName : String) (content : Option PyVal) (strRep : String)
deriving DecidableEq

/-- The agent response dict; the source reads only
`response.get("messages", [])`, so we keep just that optional key. -/
structure Response where
  messages : Option (List Message)
deriving DecidableEq

/-- Python `str.strip()` on the characters the embedding needs: drop leading
whitespace (kernel-reducible helper). -/
def dropWs : List Char → List Char
  | [] => []
  | c :: cs => if c.isWhitespace then dropWs cs else c :: cs

/-- Python `str.strip()`: trim whitespace from both ends. -/
def pyStrip (s : String) : String :=
  String.mk (dropWs ((dropWs s.data.reverse).reverse))

/-- `.strip()` on a content value: succeeds on strings, raises
`AttributeError` on non-strings. -/
def pyStripVal : PyVal → Except String String
  | .str s => .ok (pyStrip s)
  | .nonstr rep => .error ("AttributeError: strip on " ++ rep)

/-- Helper for Python substring containment. -/
def subAux (pat : List Char) : List Char → Bool
  | [] => pat.isEmpty
  | c :: cs => pat.isPrefixOf (c :: cs) || subAux pat cs

/-- Python `pat in s` for strings: substring containment. -/
def containsSub (pat s : String) : Bool :=
  subAux pat.data s.data

/-- Python `f"{i:02d}"`: decimal with zero padding to width 2. -/
def fmt2 (i : Nat) : String :=
  if i < 10 then "0" ++ toString i else toString i

/-- Python f-string rendering of a possibly-`None` string attribute. -/
def pyShow : Option String → String
  | some s => s
  | none => "None"

/-- Python `", ".join(names)`. -/
def joinComma : List String → String
  | [] => ""
  | [s] => s
  | s :: rest => s ++ ", " ++ joinComma rest

/-- Truthiness of `"tool_calls" in msg.additional_kwargs and
msg.additional_kwargs["tool_calls"]`: key present and list non-empty. -/
def kwHasToolCalls : Option (List (Option String)) → Bool
  | some l => !l.isEmpty
  | none => false

/-- `[tc['name'] for tc in msg.tool_calls]`: raises `KeyError` at the first
entry lacking the key, like the comprehension. -/
def mapNames : List ToolCall → Except String (List String)
  | [] => .ok []
  | tc :: rest =>
    match tc.name with
    | none => .error "KeyError: name"
    | some n =>
      match mapNames rest with
      | .error e => .error e
      | .ok ns => .ok (n :: ns)

/-- `[t["function"]["name"] for t in tools]` over the older
`additional_kwargs` format; a missing key raises `KeyError`. -/
def mapKwNames : List (Option String) → Except String (List String)
  | [] => .ok []
  | o :: rest =>
    match o with
    | none => .error "KeyError: function name"
    | some n =>
      match mapKwNames rest with
      | .error e => .error e
      | .ok ns => .ok (n :: ns)

/-- The token-usage line printed when `show_token_usage` is set. -/
def usageLine (u : Usage) : String :=
  "     └─ Tokens: input=" ++ toString (u.input_tokens.getD 0) ++
  ", output=" ++ toString (u.output_tokens.getD 0) ++
  ", total=" ++ toString (u.total_tokens.getD 0)

/-- The error test on a Tool message (display_utils.py line 73):
`(hasattr(msg, 'status') and msg.status == 'error') or 'Error:' in content`,
where `content` is the already-stripped text. -/
def toolIsError (status : Option String) (content : String) : Bool :=
  (status == some "error") || containsSub "Error:" content

/-- Process one message of the loop body (display_utils.py lines 42-88):
given verbosity flags, the 1-based ordinal and the current `final_answer`,
return the updated `final_answer` and the print calls made, or the raised
exception. -/
def renderMsg (v tok : Bool) (i : Nat) (fa : Option String) :
    Message → Except String (Option String × List String)
  | .ai content tcs kw usage =>
    let extra :=
      if v && tok then
        match usage with
        | some u => [usageLine u]
        | none => []
      else []
    if !tcs.isEmpty then
      match mapNames tcs with
      | .error e => .error e
      | .ok names =>
        .ok (fa, (if v then
          [fmt2 i ++ ". AIMessage → 🔧 tool_call(s): " ++ joinComma names]
          else []) ++ extra)
    else if kwHasToolCalls kw then
      match mapKwNames (kw.getD []) with
      | .error e => .error e
      | .ok names =>
        .ok (fa, (if v then
          [fmt2 i ++ ". AIMessage → 🔧 tool_call(s): " ++ joinComma names]
          else []) ++ extra)
    else
      match pyStripVal content with
      | .error e => .error e
      | .ok ans =>
        .ok (some ans, (if v then [fmt2 i ++ ". AIMessage: " ++ ans] else [])
          ++ extra)
  | .tool content name status =>
    match pyStripVal content with
    | .error e => .error e
    | .ok c =>
      .ok (fa, if v then
        [fmt2 i ++ ". ToolMessage [" ++ pyShow name ++ "]: " ++
          (if toolIsError status c then "❌ " else "✓ ") ++ c]
        else [])
  | .human content =>
    if v then
      match pyStripVal content with
      | .error e => .error e
      | .ok c => .ok (fa, [fmt2 i ++ ". HumanMessage: " ++ c])
    else .ok (fa, [])
  | .other typeName content strRep =>
    .ok (fa, if v then
      [fmt2 i ++ ". " ++ typeName ++ ": " ++
        (match content.getD (.str strRep) with
         | .str s => pyStrip s
         | .nonstr rep => rep)]
      else [])

/-- The message loop of `display_agent_response`, threading the ordinal and
the `final_answer` variable and collecting print calls. -/
def displayLoop (v tok : Bool) :
    List Message → Nat → Option String →
    Except String (Option String × List String)
  | [], _, fa => .ok (fa, [])
  | m :: rest, i, fa =>
    match renderMsg v tok i fa m with
    | .error e => .error e
    | .ok (fa2, lns) =>
      match displayLoop v tok rest (i + 1) fa2 with
      | .error e => .error e
      | .ok (fa3, lns2) => .ok (fa3, lns ++ lns2)

/-- The 70-character `"="*70` banner rule. -/
def eq70 : String := String.mk (List.replicate 70 '=')

/-- The three banner prints made before the trace in verbose mode. -/
def bannerTop : List String := ["\n" ++ eq70, "AGENT RESPONSE TRACE", eq70 ++ "\n"]

/-- The closing banner print. -/
def bannerBot : String := "\n" ++ eq70 ++ "\n"

/-- `display_agent_response(response, show_full_trace, show_token_usage,
return_final_answer)` (display_utils.py lines 9-96): returns the list of
print calls in order and the returned value (`final_answer` when
`return_final_answer` else `None`), or the raised exception. -/
def display_agent_response (response : Response)
    (show_full_trace show_token_usage return_final_answer : Bool) :
    Except String (List String × Option String) :=
  let messages := response.messages.getD []
  match displayLoop show_full_trace show_token_usage messages 1 none with
  | .error e => .error e
  | .ok (fa, lns) =>
    let header := if show_full_trace then bannerTop else []
    let footer :=
      if show_full_trace then [bannerBot]
      else
        match fa with
        | some s => if s ≠ "" then ["\n💡 Final Answer: " ++ s ++ "\n"] else []
        | none => []
    .ok (header ++ lns ++ footer,
      if return_final_answer then fa else none)

/-- The reverse scan of `get_final_answer` (display_utils.py lines 118-129),
taking the already-reversed message list. -/
def gfaGo : List Message → Except String (Option String)
  | [] => .ok none
  | m :: rest =>
    match m with
    | .ai content tcs kw _ =>
      if !tcs.isEmpty || kwHasToolCalls kw then gfaGo rest
      else
        match pyStripVal content with
        | .error e => .error e
        | .ok s => if s ≠ "" then .ok (some s) else gfaGo rest
    | _ => gfaGo rest

/-- `get_final_answer(response)` (display_utils.py lines 99-129). -/
def get_final_answer (response : Response) : Except String (Option String) :=
  gfaGo (response.messages.getD []).reverse

/-- A tool descriptor as consumed by `print_tools_summary`: optional `name`
and `description` attributes and the `str()` rendering used when `name` is
absent. -/
structure ToolDesc where
  name : Option String
  description : Option String
  strRep : String
deriving DecidableEq

/-- The enumeration loop of `print_tools_summary` (lines 147-151), starting
at ordinal `i`. -/
def toolLines : Nat → List ToolDesc → List String
  | _, [] => []
  | i, t :: ts =>
    (fmt2 i ++ ". " ++ t.name.getD t.strRep) ::
    ("    └─ " ++ t.description.getD "No description") ::
    toolLines (i + 1) ts

/-- `print_tools_summary(tools)` (display_utils.py lines 132-153): the list
of print calls made. -/
def print_tools_summary (tools : List ToolDesc) : List String :=
  ("\n" ++ eq70) ::
  ("AVAILABLE TOOLS (" ++ toString tools.length ++ " total)") ::
  (eq70 ++ "\n") ::
  (toolLines 1 tools ++ [bannerBot])

/-- Whether a content value is a Python string (has a `strip` method). -/
def PyVal.isStr : PyVal → Bool
  | .str _ => true
  | .nonstr _ => false

/-- The trimmed content of an Assistant message in the answering state
(non-invoking with textual content), `none` otherwise.  This is the value the
classifier assigns to its `final_answer` variable when it reaches the
answering branch. -/
def answeringContent : Message → Option String
  | .ai (.str s) tcs kw _ =>
    if tcs.isEmpty && !kwHasToolCalls kw then some (pyStrip s) else none
  | _ => none

/-- Modelled from the spec (§4.2): an answering Assistant message whose
trimmed content is non-empty yields that trimmed content. -/
def specAnswerOf (m : Message) : Option String :=
  match answeringContent m with
  | some s => if s ≠ "" then some s else none
  | none => none

/-- Modelled from the spec (§4.2): scan the trace in reverse chronological
order and return the trimmed content of the first answering Assistant
message with non-empty trimmed content. -/
def specExtractFinal (resp : Response) : Option String :=
  (resp.messages.getD []).reverse.findSome? specAnswerOf

/-- The value held by the classifier's `final_answer` variable after the
loop: the trimmed content of the last answering Assistant message, empty or
not. -/
def lastAnswerCandidate (resp : Response) : Option String :=
  (resp.messages.getD []).reverse.findSome? answeringContent

/-- Modelled from the spec wording of the Tool error rule: error is signaled
by an explicit error status, or, only when no status field is present at
all, by content containing the substring "Error:". -/
def specToolError (status : Option String) (content : String) : Bool :=
  (status == some "error") || (status == none && containsSub "Error:" content)

/-- Well-formedness of a message for the classifier: every field the
classifier's branch for this message actually reads has the shape the code
expects (tool-call entries carry names, stripped contents are strings).
Messages of unrecognized type are always well-formed: their branch only
probes attributes defensively. -/
def wfMsg : Message → Bool
  | .ai content tcs kw _ =>
    if !tcs.isEmpty then tcs.all (fun tc => tc.name.isSome)
    else if kwHasToolCalls kw then (kw.getD []).all Option.isSome
    else content.isStr
  | .tool content _ _ => content.isStr
  | .human content => content.isStr
  | .other _ _ _ => true

/-- Well-formedness of a whole response for the classifier. -/
def wfResp (resp : Response) : Bool :=
  (resp.messages.getD []).all wfMsg

/-- Well-formedness for the extractor: every non-invoking Assistant message
has textual content (the only field the extractor strips). -/
def extractWfMsg : Message → Bool
  | .ai content tcs kw _ => !tcs.isEmpty || kwHasToolCalls kw || content.isStr
  | _ => true

/-- A message that cannot produce a final answer: any Assistant message is
invoking or has textual content whose trim is empty. -/
def noAnswer : Message → Bool
  | .ai content tcs kw _ =>
    !tcs.isEmpty || kwHasToolCalls kw ||
      (match content with
       | .str s => pyStrip s == ""
       | .nonstr _ => false)
  | _ => true

/-- One step of the classifier's `final_answer` variable: overwritten by an
answering Assistant message (even when empty after trimming), kept
otherwise. -/
def faUpd (fa : Option String) (m : Message) : Option String :=
  match answeringContent m with
  | some s => some s
  | none => fa

/-- The extractor's reverse scan instrumented with an explicit display sink,
mirroring that its body contains no print call: every step passes the sink
through untouched. -/
def gfaGoSink : List Message → List String →
    Except String (Option String) × List String
  | [], sink => (.ok none, sink)
  | m :: rest, sink =>
    match m with
    | .ai content tcs kw _ =>
      if !tcs.isEmpty || kwHasToolCalls kw then gfaGoSink rest sink
      else
        match pyStripVal content with
        | .error e => (.error e, sink)
        | .ok s => if s ≠ "" then (.ok (some s), sink) else gfaGoSink rest sink
    | _ => gfaGoSink rest sink

/-- `get_final_answer` run against an explicit display sink. -/
def getFinalAnswerRun (resp : Response) (sink : List String) :
    Except String (Option String) × List String :=
  gfaGoSink (resp.messages.getD []).reverse sink

/-- The two lines the tool summary renders for one descriptor, written with
the code's fallbacks spelled out: a missing name falls back to the
descriptor's string rendering, a missing description to "No description". -/
def toolEntry (i : Nat) (t : ToolDesc) : List String :=
  [fmt2 i ++ ". " ++ (match t.name with | some n => n | none => t.strRep),
   "    └─ " ++
     (match t.description with | some d => d | none => "No description")]

/-- Fixture: a trace whose last Assistant message answers with content
"8". -/
def respC1 : Response :=
  ⟨some [.human (.str "what is 5 + 3?"), .ai (.str "8") [] none none]⟩

/-- Fixture: an answering Assistant message "8" followed by an answering
Assistant message whose content trims to empty. -/
def respC2 : Response :=
  ⟨some [.ai (.str "8") [] none none, .ai (.str "   ") [] none none]⟩

/-- Fixture: a well-formed trace ending in an answering Assistant message
with non-empty trimmed content. -/
def respC2W : Response :=
  ⟨some [.human (.str "hi"),
         .ai (.str "") [⟨some "add"⟩] none none,
         .tool (.str "8") (some "add") none,
         .ai (.str " 8 ") [] none none]⟩

/-- Fixture: an Assistant message whose tool-call entry lacks the name
key. -/
def respC3 : Response :=
  ⟨some [.ai (.str "x") [⟨none⟩] none none]⟩

/-- Fixture: malformed messages of unrecognized type only — one with no
content attribute, one with non-string content. -/
def respC3W : Response :=
  ⟨some [.other "WeirdMessage" none "WeirdMessage object",
         .other "DataMessage" (some (.nonstr "[1, 2]")) "ignored"]⟩

/-- Fixture: a Tool message carrying a non-error status field whose content
contains the substring "Error:". -/
def respC4 : Response :=
  ⟨some [.tool (.str "Error: division by zero") (some "div") (some "success")]⟩

/-- Fixture: an invoking Assistant message and an answering one whose
content trims to empty. -/
def respC5W : Response :=
  ⟨some [.ai (.str "") [⟨some "add"⟩] none none,
         .ai (.str "  ") [] none none]⟩

/-- Fixture: a tool descriptor with neither name nor description. -/
def tdC6 : ToolDesc := ⟨none, none, "MyToolObject"⟩

/-- Fixture: the four-message trace of the verbose rendering example. -/
def respC7 : Response :=
  ⟨some [.human (.str "what is 5 + 3?"),
         .ai (.str "") [⟨some "add"⟩] none none,
         .tool (.str "8") (some "add") none,
         .ai (.str "8") [] none none]⟩

/-- When every tool-call entry carries a name, the name comprehension
succeeds. -/
theorem mapNames_ok (tcs : List ToolCall)
    (h : tcs.all (fun tc => tc.name.isSome) = true) :
    ∃ ns, mapNames tcs = .ok ns := by
  induction tcs with
  | nil => exact ⟨[], rfl⟩
  | cons tc rest ih =>
    simp only [List.all_cons, Bool.and_eq_true] at h
    obtain ⟨ns, hns⟩ := ih h.2
    obtain ⟨n, hn⟩ := Option.isSome_iff_exists.mp h.1
    exact ⟨n :: ns, by simp [mapNames, hn, hns]⟩

/-- When every older-format entry resolves to a name, the comprehension
succeeds. -/
theorem mapKwNames_ok (l : List (Option String))
    (h : l.all Option.isSome = true) :
    ∃ ns, mapKwNames l = .ok ns := by
  induction l with
  | nil => exact ⟨[], rfl⟩
  | cons o rest ih =>
    simp only [List.all_cons, Bool.and_eq_true] at h
    obtain ⟨ns, hns⟩ := ih h.2
    obtain ⟨n, hn⟩ := Option.isSome_iff_exists.mp h.1
    exact ⟨n :: ns, by simp [mapKwNames, hn, hns]⟩

/-- An invoking Assistant message has no answering content. -/
theorem answeringContent_invoking (content : PyVal) (tcs : List ToolCall)
    (kw : Option (List (Option String))) (u : Option Usage)
    (h : (!tcs.isEmpty || kwHasToolCalls kw) = true) :
    answeringContent (.ai content tcs kw u) = none := by
  cases content with
  | nonstr rep => rfl
  | str s =>
    have hc : (tcs.isEmpty && !kwHasToolCalls kw) = false := by
      cases he : tcs.isEmpty <;> cases hk : kwHasToolCalls kw <;> simp_all
    simp [answeringContent, hc]

/-- Converting the projected form of a successful result back to an
existential over the printed lines. -/
theorem exceptMap_fst {r : Except String (Option String × List String)}
    {x : Option String} (h : r.map Prod.fst = .ok x) :
    ∃ lns, r = .ok (x, lns) := by
  cases r with
  | error e => simp [Except.map] at h
  | ok p =>
    refine ⟨p.2, ?_⟩
    simp only [Except.map, Except.ok.injEq] at h
    rw [← h]

/-- On a well-formed message, one loop step succeeds and updates the
`final_answer` variable by `faUpd`. -/
theorem renderMsg_wf (v tok : Bool) (i : Nat) (fa : Option String)
    (m : Message) (h : wfMsg m = true) :
    (renderMsg v tok i fa m).map Prod.fst = .ok (faUpd fa m) := by
  cases m with
  | ai content tcs kw usage =>
    cases tcs with
    | cons tc rest =>
      have h1 : ((tc :: rest).all fun x => x.name.isSome) = true := by
        simpa [wfMsg] using h
      obtain ⟨ns, hns⟩ := mapNames_ok _ h1
      have ha := answeringContent_invoking content (tc :: rest) kw usage
        (by simp)
      simp [renderMsg, hns, faUpd, ha, Except.map]
    | nil =>
      cases hkw : kwHasToolCalls kw
      · have h1 : content.isStr = true := by simpa [wfMsg, hkw] using h
        cases content with
        | nonstr rep => simp [PyVal.isStr] at h1
        | str s =>
          simp [renderMsg, hkw, pyStripVal, faUpd, answeringContent,
            Except.map]
      · have h1 : ((kw.getD []).all Option.isSome) = true := by
          simpa [wfMsg, hkw] using h
        obtain ⟨ns, hns⟩ := mapKwNames_ok _ h1
        have ha := answeringContent_invoking content [] kw usage
          (by simp [hkw])
        simp [renderMsg, hkw, hns, faUpd, ha, Except.map]
  | tool content name status =>
    have h1 : content.isStr = true := by simpa [wfMsg] using h
    cases content with
    | nonstr rep => simp [PyVal.isStr] at h1
    | str s => simp [renderMsg, pyStripVal, faUpd, answeringContent, Except.map]
  | human content =>
    have h1 : content.isStr = true := by simpa [wfMsg] using h
    cases content with
    | nonstr rep => simp [PyVal.isStr] at h1
    | str s =>
      cases v <;>
        simp [renderMsg, pyStripVal, faUpd, answeringContent, Except.map]
  | other ty c rep => simp [renderMsg, faUpd, answeringContent, Except.map]

/-- On a well-formed trace, the whole loop succeeds and leaves
`final_answer` at the fold of `faUpd`. -/
theorem displayLoop_wf (v tok : Bool) (l : List Message) (i : Nat)
    (fa : Option String) (h : l.all wfMsg = true) :
    (displayLoop v tok l i fa).map Prod.fst = .ok (l.foldl faUpd fa) := by
  induction l generalizing i fa with
  | nil => rfl
  | cons m rest ih =>
    simp only [List.all_cons, Bool.and_eq_true] at h
    obtain ⟨lns1, h1⟩ := exceptMap_fst (renderMsg_wf v tok i fa m h.1)
    obtain ⟨lns2, h2⟩ := exceptMap_fst (ih (i + 1) (faUpd fa m) h.2)
    simp [displayLoop, h1, h2, Except.map]

/-- The forward fold of last-write-wins updates equals the reverse-order
first hit, with the initial value as fallback. -/
theorem foldl_faUpd (l : List Message) (fa : Option String) :
    l.foldl faUpd fa = (l.reverse.findSome? answeringContent).or fa := by
  induction l generalizing fa with
  | nil => rfl
  | cons m rest ih =>
    rw [List.foldl_cons, ih (faUpd fa m), List.reverse_cons,
      List.findSome?_append]
    cases hr : rest.reverse.findSome? answeringContent with
    | some s => rfl
    | none =>
      cases hm : answeringContent m <;>
        simp [faUpd, hm, List.findSome?, Option.or]

/-- On a well-formed response, the classifier succeeds and, when asked,
returns the last answering candidate. -/
theorem display_wf (resp : Response) (v tok r : Bool)
    (h : wfResp resp = true) :
    ∃ lns, display_agent_response resp v tok r =
      .ok (lns, if r then lastAnswerCandidate resp else none) := by
  obtain ⟨lns, hl⟩ :=
    exceptMap_fst (displayLoop_wf v tok (resp.messages.getD []) 1 none h)
  rw [foldl_faUpd, Option.or_none] at hl
  refine ⟨(if v then bannerTop else []) ++ lns ++
    (if v then [bannerBot]
     else
       match lastAnswerCandidate resp with
       | some s => if s ≠ "" then ["\n💡 Final Answer: " ++ s ++ "\n"] else []
       | none => []), ?_⟩
  simp only [display_agent_response, hl, lastAnswerCandidate]

/-- The extractor's scan returns the first answering message with non-empty
trimmed content, provided non-invoking Assistant contents are textual. -/
theorem gfaGo_spec (l : List Message) (h : l.all extractWfMsg = true) :
    gfaGo l = .ok (l.findSome? specAnswerOf) := by
  induction l with
  | nil => rfl
  | cons m rest ih =>
    simp only [List.all_cons, Bool.and_eq_true] at h
    have ihr := ih h.2
    cases m with
    | ai content tcs kw u =>
      by_cases hinv : (!tcs.isEmpty || kwHasToolCalls kw) = true
      · have ha := answeringContent_invoking content tcs kw u hinv
        have hsa : specAnswerOf (.ai content tcs kw u) = none := by
          simp [specAnswerOf, ha]
        rw [List.findSome?_cons_of_isNone _ (by simp [hsa])]
        simp [gfaGo, hinv, ihr]
      · have hb : (!tcs.isEmpty || kwHasToolCalls kw) = false := by
          simpa using hinv
        have he : tcs.isEmpty = true := by
          cases hx : tcs.isEmpty <;> simp [hx] at hb ⊢
        have hk : kwHasToolCalls kw = false := by
          cases hx : kwHasToolCalls kw <;> simp [hx] at hb ⊢
        have hstr : content.isStr = true := by
          have h1 := h.1
          simp only [extractWfMsg] at h1
          rw [he, hk] at h1
          simpa using h1
        cases content with
        | nonstr rep => simp [PyVal.isStr] at hstr
        | str s =>
          have hac : answeringContent (.ai (.str s) tcs kw u) =
              some (pyStrip s) := by
            simp [answeringContent, he, hk]
          by_cases hne : pyStrip s ≠ ""
          · have hsa : specAnswerOf (.ai (.str s) tcs kw u) =
                some (pyStrip s) := by
              simp [specAnswerOf, hac, hne]
            rw [List.findSome?_cons_of_isSome _ (by simp [hsa]), hsa]
            simp [gfaGo, hb, pyStripVal, hne]
          · have hsa : specAnswerOf (.ai (.str s) tcs kw u) = none := by
              simp only [specAnswerOf, hac]
              simp [show ¬ (pyStrip s ≠ "") from hne]
            rw [List.findSome?_cons_of_isNone _ (by simp [hsa])]
            simp [gfaGo, hb, pyStripVal, hne, ihr]
    | tool content name status =>
      rw [List.findSome?_cons_of_isNone _ (by simp [specAnswerOf, answeringContent])]
      simp [gfaGo, ihr]
    | human content =>
      rw [List.findSome?_cons_of_isNone _ (by simp [specAnswerOf, answeringContent])]
      simp [gfaGo, ihr]
    | other ty c rep =>
      rw [List.findSome?_cons_of_isNone _ (by simp [specAnswerOf, answeringContent])]
      simp [gfaGo, ihr]

/-- When no Assistant message can answer, the scan returns `none`. -/
theorem gfaGo_noAnswer (l : List Message) (h : l.all noAnswer = true) :
    gfaGo l = .ok none := by
  induction l with
  | nil => rfl
  | cons m rest ih =>
    simp only [List.all_cons, Bool.and_eq_true] at h
    have ihr := ih h.2
    cases m with
    | ai content tcs kw u =>
      by_cases hinv : (!tcs.isEmpty || kwHasToolCalls kw) = true
      · simp [gfaGo, hinv, ihr]
      · have hb : (!tcs.isEmpty || kwHasToolCalls kw) = false := by
          simpa using hinv
        have h1 := h.1
        simp only [noAnswer, Bool.or_eq_true] at h1
        rcases h1 with (h1 | h1) | h1
        · simp [h1] at hb
        · simp [h1] at hb
        · cases content with
          | nonstr rep => simp at h1
          | str s =>
            have hss : pyStrip s = "" := by simpa using h1
            simp [gfaGo, hb, pyStripVal, hss, ihr]
    | tool content name status => simp [gfaGo, ihr]
    | human content => simp [gfaGo, ihr]
    | other ty c rep => simp [gfaGo, ihr]

/-- When the first answering candidate in the scan order is non-empty, the
filtered scan and the unfiltered scan agree. -/
theorem findSome_specAnswer_eq (l : List Message)
    (h : ∀ s, l.findSome? answeringContent = some s → s ≠ "") :
    l.findSome? specAnswerOf = l.findSome? answeringContent := by
  induction l with
  | nil => rfl
  | cons m rest ih =>
    cases hm : answeringContent m with
    | some s =>
      have h1 : List.findSome? answeringContent (m :: rest) = some s := by
        rw [List.findSome?_cons_of_isSome _ (by simp [hm])]; exact hm
      have hs := h s h1
      have h2 : specAnswerOf m = some s := by simp [specAnswerOf, hm, hs]
      rw [List.findSome?_cons_of_isSome _ (by simp [h2]), h2, h1]
    | none =>
      have h2 : specAnswerOf m = none := by simp [specAnswerOf, hm]
      rw [List.findSome?_cons_of_isNone _ (by simp [h2]),
        List.findSome?_cons_of_isNone _ (by simp [hm])]
      refine ih fun s hs => h s ?_
      rw [List.findSome?_cons_of_isNone _ (by simp [hm])]
      exact hs

/-- The instrumented scan never touches the sink and computes the pure
scan's result. -/
theorem gfaGoSink_pure (l : List Message) (sink : List String) :
    gfaGoSink l sink = (gfaGo l, sink) := by
  induction l generalizing sink with
  | nil => rfl
  | cons m rest ih =>
    cases m with
    | ai content tcs kw u =>
      by_cases hinv : (!tcs.isEmpty || kwHasToolCalls kw) = true
      · simp [gfaGoSink, gfaGo, hinv, ih]
      · have hb : (!tcs.isEmpty || kwHasToolCalls kw) = false := by
          simpa using hinv
        cases hp : pyStripVal content with
        | error e => simp [gfaGoSink, gfaGo, hb, hp]
        | ok s =>
          by_cases hs : s ≠ "" <;> simp [gfaGoSink, gfaGo, hb, hp, hs, ih]
    | tool content name status => simp [gfaGoSink, gfaGo, ih]
    | human content => simp [gfaGoSink, gfaGo, ih]
    | other ty c rep => simp [gfaGoSink, gfaGo, ih]

/-- Well-formedness for the classifier implies well-formedness for the
extractor. -/
theorem wfMsg_extract (m : Message) (h : wfMsg m = true) :
    extractWfMsg m = true := by
  cases m with
  | ai content tcs kw u =>
    cases tcs with
    | cons tc rest => simp [extractWfMsg]
    | nil =>
      cases hkw : kwHasToolCalls kw
      · have h1 : content.isStr = true := by simpa [wfMsg, hkw] using h
        simp [extractWfMsg, hkw, h1]
      · simp [extractWfMsg, hkw]
  | tool content name status => rfl
  | human content => rfl
  | other ty c rep => rfl

/-- The enumeration loop of the tool summary, written as a flattened
enumerated rendering. -/
theorem toolLines_eq_flatten (ts : List ToolDesc) (i : Nat) :
    toolLines i ts =
      (((List.range ts.length).zip ts).map
        (fun p => toolEntry (i + p.1) p.2)).flatten := by
  induction ts generalizing i with
  | nil => rfl
  | cons t ts ih =>
    rw [toolLines, ih (i + 1)]
    simp only [List.length_cons, List.range_succ_eq_map, List.zip_cons_cons,
      List.map_cons, List.flatten_cons, List.zip_map_left, List.map_map]
    have harg : ((fun p => toolEntry (i + p.1) p.2) ∘
        (Prod.map Nat.succ id : Nat × ToolDesc → Nat × ToolDesc)) =
        fun p => toolEntry (i + 1 + p.1) p.2 := by
      funext p
      obtain ⟨a, b⟩ := p
      simp only [Function.comp_apply, Prod.map_apply, id_eq]
      congr 1
      omega
    rw [harg]
    have hn : t.name.getD t.strRep =
        (match t.name with | some n => n | none => t.strRep) := by
      cases t.name <;> rfl
    have hd : t.description.getD "No description" =
        (match t.description with
         | some d => d
         | none => "No description") := by
      cases t.description <;> rfl
    simp [toolEntry, hn, hd]

/-- C1: `get_final_answer` scans the trace in reverse chronological order
and returns the trimmed content of the first Assistant message that is
non-invoking (no tool calls in either format) and has non-empty trimmed
content; in particular, on a trace whose last Assistant message answers
with content "8" it returns "8".  Traces are constrained to the spec's
data model: non-invoking Assistant contents are textual. -/
theorem C1_extract_reverse_scan :
    (∀ resp : Response, (resp.messages.getD []).all extractWfMsg = true →
      get_final_answer resp = .ok (specExtractFinal resp)) ∧
    get_final_answer respC1 = .ok (some "8") := by
  constructor
  · intro resp h
    unfold get_final_answer specExtractFinal
    exact gfaGo_spec _ (by rwa [List.all_reverse])
  · rfl

/-- C1 witness: the theorem applied to the concrete trace `respC1`. -/
theorem C1_extract_witness :
    (respC1.messages.getD []).all extractWfMsg = true ∧
    get_final_answer respC1 = .ok (specExtractFinal respC1) :=
  ⟨rfl, C1_extract_reverse_scan.1 respC1 rfl⟩

/-- C2 counterexample: on `respC2` (an answering Assistant message "8"
followed by a whitespace-only answering Assistant message) the classifier's
returned final answer is the empty string — the last answering message
overwrote the candidate even though its trimmed content is empty — while
the pure extractor returns "8". -/
theorem C2_display_vs_extract_counterexample :
    display_agent_response respC2 false false true = .ok ([], some "") ∧
    get_final_answer respC2 = .ok (some "8") ∧
    (some "" : Option String) ≠ some "8" :=
  ⟨rfl, rfl, by decide⟩

/-- C2 amended: on well-formed traces whose last answering Assistant
message, when one exists, has non-empty trimmed content, the candidate
final answer returned by `display_agent_response` with
`return_final_answer` equals the value returned by `get_final_answer`;
when the last answering message trims to empty, the classifier returns that
empty string while the extractor skips it. -/
theorem C2_display_final_agrees (resp : Response)
    (hwf : wfResp resp = true)
    (hne : ∀ s, lastAnswerCandidate resp = some s → s ≠ "") :
    ∃ lns,
      display_agent_response resp true false true =
        .ok (lns, specExtractFinal resp) ∧
      get_final_answer resp = .ok (specExtractFinal resp) := by
  obtain ⟨lns, hl⟩ := display_wf resp true false true hwf
  have heq : lastAnswerCandidate resp = specExtractFinal resp := by
    rw [lastAnswerCandidate, specExtractFinal]
    exact (findSome_specAnswer_eq _ fun s hs => hne s hs).symm
  refine ⟨lns, ?_, ?_⟩
  · rw [hl]
    simp [heq]
  · rw [get_final_answer, specExtractFinal]
    refine gfaGo_spec _ ?_
    rw [List.all_reverse]
    exact List.all_eq_true.mpr fun m hm =>
      wfMsg_extract m (List.all_eq_true.mp hwf m hm)

/-- C2 witness: the amended theorem applied to the concrete well-formed
trace `respC2W`, whose last answering message is " 8 ". -/
theorem C2_display_final_agrees_witness :
    ∃ lns,
      display_agent_response respC2W true false true =
        .ok (lns, specExtractFinal respC2W) ∧
      get_final_answer respC2W = .ok (specExtractFinal respC2W) :=
  C2_display_final_agrees respC2W rfl (by
    intro s hs
    have h8 : lastAnswerCandidate respC2W = some "8" := rfl
    rw [h8] at hs
    cases hs
    decide)

/-- C3 counterexample: a recognized Assistant message whose tool-call entry
lacks the name key makes `display_agent_response` raise `KeyError` instead
of degrading to the Other-role rendering path. -/
theorem C3_missing_fields_counterexample :
    display_agent_response respC3 true false false =
      .error "KeyError: name" := rfl

/-- C3 amended: `display_agent_response` never raises when malformed fields
occur only on messages of unrecognized type — those always degrade to the
generic Other-role rendering path (which never raises and never changes the
final answer) — i.e. whenever every recognized Assistant/Tool/Human message
is well-formed; a recognized message with a missing tool-call name or
non-string content can raise. -/
theorem C3_unrecognized_degrade :
    (∀ (resp : Response) (v tok r : Bool), wfResp resp = true →
      ∃ out, display_agent_response resp v tok r = .ok out) ∧
    (∀ (v tok : Bool) (i : Nat) (fa : Option String) (ty : String)
      (c : Option PyVal) (rep : String),
      ∃ lns, renderMsg v tok i fa (.other ty c rep) = .ok (fa, lns)) := by
  constructor
  · intro resp v tok r h
    obtain ⟨lns, hl⟩ := display_wf resp v tok r h
    exact ⟨_, hl⟩
  · intro v tok i fa ty c rep
    exact ⟨_, rfl⟩

/-- C3 witness: the amended theorem applied to a trace of two malformed
messages of unrecognized type (one without a content attribute, one with
non-string content). -/
theorem C3_unrecognized_degrade_witness :
    (∃ out, display_agent_response respC3W true false false = .ok out) ∧
    (∃ lns, renderMsg true false 1 none
      (.other "WeirdMessage" none "WeirdMessage object") = .ok (none, lns)) :=
  ⟨C3_unrecognized_degrade.1 respC3W true false false rfl,
   C3_unrecognized_degrade.2 true false 1 none "WeirdMessage" none
     "WeirdMessage object"⟩

/-- C4 counterexample: a Tool message whose status field is present with the
non-error value "success" and whose content contains "Error:" is still
rendered with the error marker, although the claim's condition (explicit
error status, or substring only when no status field is present) is false
there. -/
theorem C4_status_present_counterexample :
    display_agent_response respC4 true false false =
      .ok (bannerTop ++
        ["01. ToolMessage [div]: ❌ Error: division by zero"] ++
        [bannerBot], none) ∧
    specToolError (some "success") (pyStrip "Error: division by zero") =
      false :=
  ⟨rfl, rfl⟩

/-- C4 amended: the classifier marks a Tool message with the error
indicator iff its status field equals "error" or its trimmed content
contains the substring "Error:" — the substring fallback applies regardless
of whether a status field is present; in particular a Tool message with
content "Error: division by zero" and no status field is classified as an
error. -/
theorem C4_error_marking :
    (∀ (st nm : Option String) (s : String),
      display_agent_response ⟨some [.tool (.str s) nm st]⟩ true false false =
        .ok (bannerTop ++
          [fmt2 1 ++ ". ToolMessage [" ++ pyShow nm ++ "]: " ++
            (if st = some "error" ∨ containsSub "Error:" (pyStrip s) = true
             then "❌ " else "✓ ") ++ pyStrip s] ++ [bannerBot], none)) ∧
    toolIsError none (pyStrip "Error: division by zero") = true := by
  constructor
  · intro st nm s
    have hiff : (st = some "error" ∨ containsSub "Error:" (pyStrip s) = true)
        ↔ toolIsError st (pyStrip s) = true := by
      simp [toolIsError]
    by_cases hP : st = some "error" ∨ containsSub "Error:" (pyStrip s) = true
    · have hbt := hiff.mp hP
      simp [display_agent_response, displayLoop, renderMsg, pyStripVal, hbt,
        hP, bannerTop, bannerBot]
    · have hbf : toolIsError st (pyStrip s) = false := by
        rcases Bool.eq_false_or_eq_true (toolIsError st (pyStrip s)) with
          h | h
        · exact absurd (hiff.mpr h) hP
        · exact h
      simp [display_agent_response, displayLoop, renderMsg, pyStripVal, hbf,
        hP, bannerTop, bannerBot]
  · rfl

/-- C5: on any trace in which no answering Assistant message with non-empty
trimmed content exists — every Assistant message is invoking or its content
trims to empty — `get_final_answer` returns `none` rather than raising. -/
theorem C5_no_answer_returns_none (resp : Response)
    (h : (resp.messages.getD []).all noAnswer = true) :
    get_final_answer resp = .ok none := by
  unfold get_final_answer
  exact gfaGo_noAnswer _ (by rwa [List.all_reverse])

/-- C5 witness: the theorem applied to a trace of one invoking Assistant
message and one answering Assistant message with whitespace-only content. -/
theorem C5_no_answer_witness :
    (respC5W.messages.getD []).all noAnswer = true ∧
    get_final_answer respC5W = .ok none :=
  ⟨rfl, C5_no_answer_returns_none respC5W rfl⟩

/-- C6 counterexample: a tool descriptor with no name attribute renders its
string representation ("MyToolObject"), not the placeholder "unknown"; the
description fallback "No description" does hold. -/
theorem C6_missing_name_counterexample :
    print_tools_summary [tdC6] =
      ["\n" ++ eq70, "AVAILABLE TOOLS (1 total)", eq70 ++ "\n",
       "01. MyToolObject", "    └─ No description", bannerBot] ∧
    ("01. MyToolObject" : String) ≠ "01. unknown" :=
  ⟨rfl, by decide⟩

/-- C6 amended: `print_tools_summary` performs no validation beyond
defaulting missing fields: every descriptor renders as an enumerated
name line and description line, where a missing description renders as the
placeholder "No description" but a missing name renders as the tool's
string representation (`str(tool)`), not as "unknown". -/
theorem C6_default_fields (ts : List ToolDesc) :
    print_tools_summary ts =
      ("\n" ++ eq70) ::
      ("AVAILABLE TOOLS (" ++ toString ts.length ++ " total)") ::
      (eq70 ++ "\n") ::
      ((((List.range ts.length).zip ts).map
        (fun p => toolEntry (1 + p.1) p.2)).flatten ++ [bannerBot]) := by
  rw [print_tools_summary, toolLines_eq_flatten]

/-- C7: verbose classification of the four-message example trace renders
the banner and exactly four message lines in original order with 1-based
ordinals — the user line, the tool-invocation line listing the called tool
"add", the successful tool-result line, and the final-answer line — and
returns the final answer "8". -/
theorem C7_verbose_trace :
    display_agent_response respC7 true false true =
      .ok (["\n" ++ eq70, "AGENT RESPONSE TRACE", eq70 ++ "\n",
            "01. HumanMessage: what is 5 + 3?",
            "02. AIMessage → 🔧 tool_call(s): add",
            "03. ToolMessage [add]: ✓ 8",
            "04. AIMessage: 8",
            bannerBot], some "8") := rfl

/-- C8: on an empty trace, verbose rendering prints only the surrounding
banner, non-verbose rendering prints nothing at all, and the extractor
returns `none`. -/
theorem C8_empty_trace :
    display_agent_response ⟨some []⟩ true false false =
      .ok (bannerTop ++ [bannerBot], none) ∧
    display_agent_response ⟨some []⟩ false false false = .ok ([], none) ∧
    get_final_answer ⟨some []⟩ = .ok none :=
  ⟨rfl, rfl, rfl⟩

/-- C9: `get_final_answer` is deterministic and side-effect-free: run
against any display sink it leaves the sink untouched, its result is the
pure function of the trace (so any two calls yield identical results), and
a second call after the first returns the same result.  The trace itself is
an immutable value in the embedding. -/
theorem C9_extractor_pure (resp : Response) (sink : List String) :
    (getFinalAnswerRun resp sink).2 = sink ∧
    (getFinalAnswerRun resp sink).1 = get_final_answer resp ∧
    (getFinalAnswerRun resp ((getFinalAnswerRun resp sink).2)).1 =
      (getFinalAnswerRun resp sink).1 := by
  refine ⟨?_, ?_, ?_⟩ <;>
    simp [getFinalAnswerRun, gfaGoSink_pure, get_final_answer]

/-- C10: a response dict with no "messages" key behaves exactly as one with
an empty trace: the classifier renders the same output for every flag
combination and does not raise, and the extractor returns `none`. -/
theorem C10_missing_messages_key (v tok r : Bool) :
    display_agent_response ⟨none⟩ v tok r =
      display_agent_response ⟨some []⟩ v tok r ∧
    (∃ out, display_agent_response ⟨none⟩ v tok r = .ok out) ∧
    get_final_answer ⟨none⟩ = .ok none := by
  cases v <;> cases tok <;> cases r <;> exact ⟨rfl, ⟨_, rfl⟩, rfl⟩

end DisplayUtils
